import Mathlib

/-!
Verification development for the agentic-patterns repository: a shallow
embedding of the ReAct planning agent, the reflection agent, the tool-call
processing pipeline and the crew dependency-graph scheduler, together with
theorems checking the natural-language specification against the code.

External collaborators (the model-completion call) are modelled as oracles
`Nat → List Message → String`: the n-th completion request over the given
conversation buffer.  Components of the repository that are referenced by
the agents but whose files are not part of the source snapshot
(utils/extraction.py, utils/completions.py, tool.py, crew.py, the Python
standard library's json module) are modelled from the specification text and
are marked as such in their doc comments.
-/

namespace AgenticPatterns

/-- Single-quote character (Python uses it when rendering str values). -/
def squoteC : Char := Char.ofNat 39

/-- Single-quote as a one-character string. -/
def sq : String := String.mk [squoteC]

/-- Roles a chat message can carry. -/
inductive Role where
  | system
  | user
  | assistant
deriving DecidableEq, Repr

/-- A role-tagged chat message. -/
structure Message where
  role : Role
  content : String
deriving DecidableEq, Repr

/-- Split a character list at the first occurrence of `pat`, returning the
part strictly before the occurrence and the part strictly after it. -/
def splitFirst (pat : List Char) : List Char → Option (List Char × List Char)
  | [] => if pat.isEmpty then some ([], []) else none
  | c :: rest =>
    if pat.isPrefixOf (c :: rest) then some ([], (c :: rest).drop pat.length)
    else
      match splitFirst pat rest with
      | some (pre, post) => some (c :: pre, post)
      | none => none

/-- Python's substring test `pat in s`. -/
def strContains (s pat : String) : Bool :=
  (splitFirst pat.data s.data).isSome

/-- Result of structured-tag extraction: the ordered contents of the
matched tag pairs, and whether at least one pair was found. -/
structure TagContentResult where
  content : List String
  found : Bool
deriving DecidableEq, Repr

/-- Fuel-bounded scan collecting, in document order, the text strictly
between consecutive open/close tag pairs. -/
def extractTagAux (openTag closeTag : List Char) : Nat → List Char → List (List Char)
  | 0, _ => []
  | fuel + 1, s =>
    match splitFirst openTag s with
    | none => []
    | some (_, rest) =>
      match splitFirst closeTag rest with
      | none => []
      | some (body, rest2) => body :: extractTagAux openTag closeTag fuel rest2

/-- Modelled from the spec: utils/extraction.py is not under src/.  Given
free-form text and a tag name, return `found` and the ordered list of raw
contents strictly between matching open/close tag pairs, in order of
appearance; an unclosed or absent tag yields `found = false` and an empty
list, never an error (spec section 4.2). -/
def extract_tag_content (text tag : String) : TagContentResult :=
  let openTag := ("<" ++ tag ++ ">").data
  let closeTag := ("</" ++ tag ++ ">").data
  let pieces := (extractTagAux openTag closeTag (text.length + 1) text.data).map String.mk
  { content := pieces, found := !pieces.isEmpty }

/-- Modelled from the spec: utils/completions.py is not under src/.  Wraps
the prompt in the given tag (when non-empty) and pairs it with a role. -/
def build_prompt_structure (prompt : String) (role : Role) (tag : String) : Message :=
  if tag = "" then { role := role, content := prompt }
  else { role := role, content := "<" ++ tag ++ ">" ++ prompt ++ "</" ++ tag ++ ">" }

/-- Modelled from the spec: utils/completions.py is not under src/.  Append
to a length-capped buffer whose first message is pinned: when the buffer is
at its cap the oldest non-first message is dropped before the append
(spec section 3, Conversation Buffer, capped flavor). -/
def fixedFirstAppend (cap : Nat) (h : List Message) (m : Message) : List Message :=
  if h.length = cap then h.take 1 ++ h.drop 2 ++ [m] else h ++ [m]

/-- JSON values of the subset used on the repository's wire formats:
objects, strings and integers (spec section 6). -/
inductive JVal where
  | jint : Int → JVal
  | jstr : String → JVal
  | jobj : List (String × JVal) → JVal

/-- Left brace character. -/
def lbraceC : Char := Char.ofNat 123

/-- Right brace character. -/
def rbraceC : Char := Char.ofNat 125

/-- Skip JSON whitespace. -/
def skipWs : List Char → List Char
  | c :: rest =>
    if c = ' ' ∨ c = '\n' ∨ c = '\t' ∨ c = '\r' then skipWs rest else c :: rest
  | [] => []

/-- Parse the body of a JSON string after the opening quote; no escape
sequences (none appear on the repository's wire formats). -/
def parseJStr : List Char → Option (List Char × List Char)
  | [] => none
  | c :: rest =>
    if c = '"' then some ([], rest)
    else
      match parseJStr rest with
      | some (s, r) => some (c :: s, r)
      | none => none

/-- Longest digit run at the head of the input. -/
def parseDigits : List Char → (List Char × List Char)
  | [] => ([], [])
  | c :: rest =>
    if c.isDigit then
      let (ds, r) := parseDigits rest
      (c :: ds, r)
    else ([], c :: rest)

/-- Decimal value of a digit run. -/
def digitsToNat (ds : List Char) : Nat :=
  ds.foldl (fun acc c => acc * 10 + (c.toNat - 48)) 0

mutual

/-- Fuel-bounded parser for the JSON subset (objects, strings, integers). -/
def parseJVal : Nat → List Char → Option (JVal × List Char)
  | 0, _ => none
  | fuel + 1, s0 =>
    match skipWs s0 with
    | [] => none
    | c :: rest =>
      if c = '"' then
        match parseJStr rest with
        | some (cs, r) => some (JVal.jstr (String.mk cs), r)
        | none => none
      else if c = lbraceC then
        match parseJObjEntries fuel rest with
        | some (kvs, r) => some (JVal.jobj kvs, r)
        | none => none
      else if c = '-' then
        match parseDigits rest with
        | ([], _) => none
        | (ds, r) => some (JVal.jint (-(digitsToNat ds : Int)), r)
      else if c.isDigit then
        let (ds, r) := parseDigits (c :: rest)
        some (JVal.jint (digitsToNat ds), r)
      else none

/-- Entries of a JSON object after the opening brace, up to and including
the closing brace. -/
def parseJObjEntries : Nat → List Char → Option (List (String × JVal) × List Char)
  | 0, _ => none
  | fuel + 1, s =>
    match skipWs s with
    | [] => none
    | c :: rest =>
      if c = rbraceC then some ([], rest)
      else if c = '"' then
        match parseJStr rest with
        | none => none
        | some (key, r1) =>
          match skipWs r1 with
          | ':' :: r2 =>
            match parseJVal fuel r2 with
            | none => none
            | some (v, r3) =>
              match skipWs r3 with
              | ',' :: r4 =>
                match parseJObjEntries fuel r4 with
                | some (kvs, r5) => some ((String.mk key, v) :: kvs, r5)
                | none => none
              | c2 :: r4 => if c2 = rbraceC then some ([(String.mk key, v)], r4) else none
              | [] => none
          | _ => none
      else none

end

/-- Modelled from the spec: the Python standard library's json.loads,
restricted to the subset of JSON appearing on the tool-call wire format
(spec section 6); `none` stands for a JSONDecodeError. -/
def json_loads (s : String) : Option JVal :=
  match parseJVal (s.length + 1) s.data with
  | some (v, r) => if (skipWs r).isEmpty then some v else none
  | none => none

/-- Python dict item lookup on a parsed JSON object (a duplicate key keeps
its last binding, as json.loads does). -/
def jvalGet (v : JVal) (key : String) : Option JVal :=
  match v with
  | JVal.jobj kvs => (kvs.reverse.find? (fun kv => kv.fst = key)).map (fun kv => kv.snd)
  | _ => none

mutual

/-- Python repr of a value of the JSON subset: integers bare, strings
single-quoted, dicts brace-rendered with quoted keys. -/
def pyReprJVal : JVal → String
  | JVal.jint i => toString i
  | JVal.jstr s => sq ++ s ++ sq
  | JVal.jobj kvs => "\x7b" ++ pyReprEntries kvs ++ "\x7d"

/-- Comma-separated Python repr of dict entries. -/
def pyReprEntries : List (String × JVal) → String
  | [] => ""
  | [kv] => sq ++ kv.fst ++ sq ++ ": " ++ pyReprJVal kv.snd
  | kv :: rest => sq ++ kv.fst ++ sq ++ ": " ++ pyReprJVal kv.snd ++ ", " ++ pyReprEntries rest

end

/-- A tool descriptor: the wrapped function's name, its JSON-serialized
signature (as stored by the tool decorator and concatenated into the system
prompt), and the wrapped callable, modelled as a total function from
keyword arguments to a result value. -/
structure Tool where
  name : String
  fn_signature : String
  run : List (String × JVal) → JVal

/-- Errors that a call to process_tool_calls can raise.  In Python these
surface as JSONDecodeError, KeyError (a missing field on the parsed call),
KeyError on the tools_dict lookup (the condition the spec's taxonomy names
UnknownToolError) and the validation failure the spec names ArgumentError. -/
inductive ProcErr where
  | jsonDecodeError
  | keyError : String → ProcErr
  | unknownTool : String → ProcErr
  | argumentError : String → ProcErr
deriving DecidableEq, Repr

/-- The observation mapping: a Python dict from call id to tool result, in
insertion order. -/
abbrev PyDict := List (Int × JVal)

/-- Python dict assignment `d[k] = v`: an existing key keeps its position
and gets the new value (keys are unique in any dict built by assignments);
a new key is appended at the end. -/
def pyDictInsert : PyDict → Int → JVal → PyDict
  | [], k, v => [(k, v)]
  | (k0, v0) :: rest, k, v =>
    if k0 = k then (k, v) :: rest else (k0, v0) :: pyDictInsert rest k v

/-- Python dict lookup `d[k]` as an Option. -/
def pyDictGet : PyDict → Int → Option JVal
  | [], _ => none
  | (k0, v0) :: rest, k => if k0 = k then some v0 else pyDictGet rest k

/-- Python repr of the observation dict: integer keys are rendered bare,
exactly as the f-string over the observations dict renders them. -/
def pyReprDict (d : PyDict) : String :=
  "\x7b" ++ String.intercalate ", " (d.map (fun kv => toString kv.fst ++ ": " ++ pyReprJVal kv.snd)) ++ "\x7d"

/-- A record of one executed tool call (tool name, call id, raw result).
This trace is a ghost observation used only in theorem statements; it does
not influence the computed observations. -/
structure ExecEvent where
  tool : String
  callId : Int
  result : JVal

/-- Checks a wire type name against a value, for argument validation. -/
def typeMatches (ty : String) (v : JVal) : Bool :=
  match ty, v with
  | "int", JVal.jint _ => true
  | "str", JVal.jstr _ => true
  | _, _ => false

/-- Modelled from the spec: tool.py is not under src/.  Section 4.1: every
argument name present in the call must match a declared parameter, every
declared (required) parameter must be present, and a type mismatch is
rejected; on success the arguments are returned for execution unchanged,
and on failure the wrapped callable is never invoked. -/
def validate_arguments (args : List (String × JVal)) (sigj : JVal) : Except ProcErr (List (String × JVal)) :=
  match jvalGet sigj "parameters" with
  | none => Except.error (ProcErr.argumentError "signature has no parameters")
  | some params =>
    match jvalGet params "properties" with
    | some (JVal.jobj props) =>
      if args.all (fun kv => props.any (fun p => p.fst = kv.fst)) then
        if props.all (fun p => args.any (fun kv => kv.fst = p.fst)) then
          if args.all (fun kv =>
              match (props.reverse.find? (fun p => p.fst = kv.fst)).map (fun p => p.snd) with
              | some pv =>
                (match jvalGet pv "type" with
                 | some (JVal.jstr ty) => typeMatches ty kv.snd
                 | _ => false)
              | none => false) then
            Except.ok args
          else Except.error (ProcErr.argumentError "type mismatch")
        else Except.error (ProcErr.argumentError "missing required parameter")
      else Except.error (ProcErr.argumentError "unknown parameter")
    | _ => Except.error (ProcErr.argumentError "signature has no properties")

/-- The tools_dict lookup of ReactAgent.__init__, expressed as a query on
the tool list: a dict comprehension keeps the last tool per name, and a
key absent from the dict raises KeyError. -/
def toolLookup (tools : List Tool) (n : String) : Option Tool :=
  tools.reverse.find? (fun t => t.name = n)

/-- One iteration of the source loop of process_tool_calls: json.loads the
serialized call, read its name, look the tool up in tools_dict (an unknown
name is the KeyError the spec calls UnknownToolError), validate the
arguments against the tool's parsed signature and execute; on success
return the tool's name, the call's id and the raw result.  The id field is
read together with the other fields of the parsed call; this is observably
identical to the source for every call carrying an id, which the wire
format (spec section 6) always includes. -/
def processOne (tools : List Tool) (s : String) : Except ProcErr (String × Int × JVal) :=
  match json_loads s with
  | none => Except.error ProcErr.jsonDecodeError
  | some j =>
    match jvalGet j "name" with
    | none => Except.error (ProcErr.keyError "name")
    | some (JVal.jstr n) =>
      match toolLookup tools n with
      | none => Except.error (ProcErr.unknownTool n)
      | some tool =>
        match json_loads tool.fn_signature with
        | none => Except.error ProcErr.jsonDecodeError
        | some sigj =>
          match jvalGet j "arguments" with
          | none => Except.error (ProcErr.keyError "arguments")
          | some (JVal.jobj args) =>
            match validate_arguments args sigj with
            | Except.error e => Except.error e
            | Except.ok vargs =>
              match jvalGet j "id" with
              | some (JVal.jint i) => Except.ok (tool.name, i, tool.run vargs)
              | _ => Except.error (ProcErr.keyError "id")
          | some _ => Except.error (ProcErr.argumentError "arguments is not an object")
    | some nv => Except.error (ProcErr.unknownTool (pyReprJVal nv))

/-- Worker for process_tool_calls: processes each serialized call in
order, carrying the observations dict and the ghost execution trace; any
error aborts the remaining calls. -/
def processAux (tools : List Tool) : List String → PyDict → List ExecEvent → (Except ProcErr PyDict) × List ExecEvent
  | [], obs, trace => (Except.ok obs, trace)
  | s :: rest, obs, trace =>
    match processOne tools s with
    | Except.error e => (Except.error e, trace)
    | Except.ok (nm, i, res) =>
      processAux tools rest (pyDictInsert obs i res) (trace ++ [⟨nm, i, res⟩])

/-- Embedding of ReactAgent.process_tool_calls: fold the serialized tool
calls into the `id → result` observations dict, executing each call in the
order it appears; any failure aborts the remaining calls and surfaces as
the error.  The second component is the ghost trace of executed calls. -/
def process_tool_calls (tools : List Tool) (tool_calls_content : List String) : (Except ProcErr PyDict) × List ExecEvent :=
  processAux tools tool_calls_content [] []

/-- The base system prompt of react_agent.py (empty). -/
def BASE_SYSTEM_PROMPT : String := ""

/-- Text of REACT_SYSTEM_PROMPT up to the %s substitution point. -/
def REACT_SYSTEM_PROMPT_HEAD : String :=
  "\nYou operate by running a loop with the following steps: Thought, Action, Observation.\n"
  ++ "You are provided with function signatures within <tools></tools> XML tags.\n"
  ++ "You may call one or more functions to assist with the user query. Don" ++ sq
  ++ " make assumptions about what values to plug\n"
  ++ "into functions. Pay special attention to the properties " ++ sq ++ "types" ++ sq
  ++ ". You should use those types as in a Python dict.\n\n"
  ++ "For each function call return a json object with function name and arguments within <tool_call></tool_call> XML tags as follows:\n\n"
  ++ "<tool_call>\n"
  ++ "\x7b\"name\": <function-name>,\"arguments\": <args-dict>, \"id\": <monotonically-increasing-id>\x7d\n"
  ++ "</tool_call>\n\n"
  ++ "Here are the available tools / actions:\n\n"
  ++ "<tools>\n"

/-- Text of REACT_SYSTEM_PROMPT after the %s substitution point. -/
def REACT_SYSTEM_PROMPT_TAIL : String :=
  "\n</tools>\n\nExample session:\n\n"
  ++ "<question>What" ++ sq ++ "s the current temperature in Madrid?</question>\n"
  ++ "<thought>I need to get the current weather in Madrid</thought>\n"
  ++ "<tool_call>\x7b\"name\": \"get_current_weather\",\"arguments\": \x7b\"location\": \"Madrid\", \"unit\": \"celsius\"\x7d, \"id\": 0\x7d</tool_call>\n\n"
  ++ "You will be called again with this:\n\n"
  ++ "<observation>\x7b0: \x7b\"temperature\": 25, \"unit\": \"celsius\"\x7d\x7d</observation>\n\n"
  ++ "You then output:\n\n"
  ++ "<response>The current temperature in Madrid is 25 degrees Celsius</response>\n\n"
  ++ "Additional constraints:\n\n"
  ++ "- If the user asks you something unrelated to any of the tools above, answer freely enclosing your answer with <response></response> tags.\n"

/-- REACT_SYSTEM_PROMPT % sigs: the ReAct instructions with the tool
signatures substituted for the %s placeholder. -/
def reactSystemPromptFor (sigs : String) : String :=
  REACT_SYSTEM_PROMPT_HEAD ++ sigs ++ REACT_SYSTEM_PROMPT_TAIL

/-- The ReactAgent state: model name, current system prompt and declared
tool list (the constructor's Tool-or-list normalization is Python typing
boilerplate; the embedding takes the list.  The client field is the opaque
completion collaborator and is represented by the oracle argument of run;
tools_dict is the derived lookup toolLookup). -/
structure ReactAgent where
  model : String
  system_prompt : String
  tools : List Tool

/-- Configuration failure raised by the constructors (a Python ValueError). -/
inductive ConfigErr where
  | valueError : String → ConfigErr
deriving DecidableEq, Repr

/-- The ValueError message both constructors raise for a missing key. -/
def apiKeyErrorMsg : String :=
  "DEEPSEEK_API_KEY environment variable is required. Please set it in your .env file or environment."

/-- Embedding of ReactAgent.__init__: the DEEPSEEK_API_KEY credential is
read from the environment (modelled as an Option String; Python's
`not api_key` is also true for an empty string) and a missing credential
raises ValueError before any client, graph or loop work. -/
def mkReactAgent (env : Option String) (tools : List Tool) (model : String) (system_prompt : String) : Except ConfigErr ReactAgent :=
  match env with
  | none => Except.error (ConfigErr.valueError apiKeyErrorMsg)
  | some k =>
    if k = "" then Except.error (ConfigErr.valueError apiKeyErrorMsg)
    else Except.ok { model := model, system_prompt := system_prompt, tools := tools }

/-- Embedding of ReactAgent.add_tool_signatures: concatenation of every
tool's serialized signature. -/
def ReactAgent.add_tool_signatures (a : ReactAgent) : String :=
  String.join (a.tools.map (fun t => t.fn_signature))

/-- The block run appends to the system prompt when tools are declared: a
newline plus the ReAct instructions carrying the tool signatures. -/
def ReactAgent.reactBlock (a : ReactAgent) : String :=
  "\n" ++ reactSystemPromptFor a.add_tool_signatures

/-- The system prompt after the run-time augmentation step: with a
non-empty tool set the ReAct instructions and tool signatures are appended
(and, since the source mutates self.system_prompt in place, this is also
the agent's system prompt after run returns). -/
def ReactAgent.seededSystemPrompt (a : ReactAgent) : String :=
  if a.tools.isEmpty then a.system_prompt
  else a.system_prompt ++ a.reactBlock

/-- The conversation buffer run seeds: the (augmented) system prompt and
the user question wrapped in question tags. -/
def ReactAgent.seedHistory (a : ReactAgent) (user_msg : String) : List Message :=
  [build_prompt_structure a.seededSystemPrompt Role.system "",
   build_prompt_structure user_msg Role.user "question"]

/-- Exceptions a run can raise. -/
inductive RunErr where
  | indexError
  | procError : ProcErr → RunErr
deriving DecidableEq, Repr

/-- The completion collaborator: the n-th completion request, over the
conversation buffer passed to it. -/
abbrev CompletionOracle := Nat → List Message → String

/-- How the Thought-Action-Observation loop ends: the round budget is
exhausted (with the final buffer and completion-call count), a response tag
was found, or an exception was raised. -/
inductive LoopExit where
  | budget : List Message → Nat → LoopExit
  | answered : Nat → String → LoopExit
  | raised : Nat → RunErr → LoopExit
deriving DecidableEq, Repr

/-- Embedding of the for-loop of ReactAgent.run, by remaining rounds.  Each
round requests one completion; a response tag returns its first content;
otherwise the completion is appended as an assistant turn, thought.content
is indexed at 0 (IndexError when the extraction is empty), and when tool
call tags are present they are processed and the observations dict is
rendered and appended as a user turn.  Note that extract_tag_content sets
found exactly when content is non-empty, so matching on content here is
the source's branching on the found flag. -/
def reactLoopAux (tools : List Tool) (oracle : CompletionOracle) : Nat → List Message → Nat → LoopExit
  | 0, hist, calls => LoopExit.budget hist calls
  | n + 1, hist, calls =>
    let completion := oracle calls hist
    match (extract_tag_content completion "response").content with
    | c :: _ => LoopExit.answered (calls + 1) c
    | [] =>
      let thought := extract_tag_content completion "thought"
      let tool_calls := extract_tag_content completion "tool_call"
      let hist1 := hist ++ [{ role := Role.assistant, content := completion }]
      match thought.content with
      | [] => LoopExit.raised (calls + 1) RunErr.indexError
      | _ :: _ =>
        match tool_calls.content with
        | [] => reactLoopAux tools oracle n hist1 (calls + 1)
        | tc0 :: tcs =>
          match process_tool_calls tools (tc0 :: tcs) with
          | (Except.error e, _) => LoopExit.raised (calls + 1) (RunErr.procError e)
          | (Except.ok observations, _) =>
            reactLoopAux tools oracle n
              (hist1 ++ [{ role := Role.user, content := pyReprDict observations }]) (calls + 1)

/-- What a call to ReactAgent.run leaves behind: the agent as mutated by
the run (its system prompt is updated in place), the total number of
completion requests made, and the returned answer or raised exception. -/
structure RunOutcome where
  agent : ReactAgent
  completionCalls : Nat
  result : Except RunErr String

/-- Embedding of ReactAgent.run: augment the system prompt (in place) when
tools are declared, seed the conversation buffer, and with no tools answer
with a single completion over the seeded buffer; otherwise drive the
bounded loop, and when the budget is exhausted without a response tag,
request one further completion over the accumulated buffer and return its
raw content. -/
def ReactAgent.run (a : ReactAgent) (oracle : CompletionOracle) (user_msg : String) (max_rounds : Nat) : RunOutcome :=
  let a1 : ReactAgent := { a with system_prompt := a.seededSystemPrompt }
  let chat_history := a.seedHistory user_msg
  if a.tools.isEmpty then
    { agent := a1, completionCalls := 1, result := Except.ok (oracle 0 chat_history) }
  else
    match reactLoopAux a.tools oracle max_rounds chat_history 0 with
    | LoopExit.budget hist calls =>
      { agent := a1, completionCalls := calls + 1, result := Except.ok (oracle calls hist) }
    | LoopExit.answered calls ans =>
      { agent := a1, completionCalls := calls, result := Except.ok ans }
    | LoopExit.raised calls e =>
      { agent := a1, completionCalls := calls, result := Except.error e }

/-- Text of BASE_GENERATION_SYSTEM_PROMPT from reflection_agent.py. -/
def BASE_GENERATION_SYSTEM_PROMPT : String :=
  "\nYour task is to Generate the best content possible for the user" ++ sq ++ "s request.\n"
  ++ "If the user provides critique, respond with a revised version of your previous attempt.\n"
  ++ "You must always output the revised content.\n"

/-- Text of BASE_REFLECTION_SYSTEM_PROMPT from reflection_agent.py. -/
def BASE_REFLECTION_SYSTEM_PROMPT : String :=
  "\nYou are tasked with generating critique and recommendations to the user" ++ sq ++ "s generated content.\n"
  ++ "If the user content has something wrong or something to be improved, output a list of recommendations\n"
  ++ "and critiques. If the user content is ok and there" ++ sq
  ++ "s nothing to change, output this: <OK>\n"

/-- The ReflectionAgent state: just the model name (the client is the
opaque completion collaborator, represented by the oracles of run). -/
structure ReflectionAgent where
  model : String
deriving DecidableEq, Repr

/-- Embedding of ReflectionAgent.__init__: a missing (or empty) credential
raises ValueError before any loop work. -/
def mkReflectionAgent (env : Option String) (model : String) : Except ConfigErr ReflectionAgent :=
  match env with
  | none => Except.error (ConfigErr.valueError apiKeyErrorMsg)
  | some k =>
    if k = "" then Except.error (ConfigErr.valueError apiKeyErrorMsg)
    else Except.ok { model := model }

/-- State threaded through the generate/reflect loop: the two capped
buffers, the per-phase completion-call counts, and the draft produced by
the most recent generation step (none before the first step; returning
with none is Python's NameError on the undefined local). -/
structure ReflState where
  genHist : List Message
  reflHist : List Message
  genCalls : Nat
  reflCalls : Nat
  lastGen : Option String

/-- Exceptions ReflectionAgent.run can raise. -/
inductive ReflErr where
  | nameError
deriving DecidableEq, Repr

/-- Embedding of the for-loop of ReflectionAgent.run, by remaining steps.
Each step requests a generation over the generation buffer, appends it to
both buffers (cap 3, first message pinned), requests a critique over the
reflection buffer, stops when the critique contains the literal stop
marker, and otherwise appends the critique to both buffers and repeats. -/
def reflectionLoop (genO reflO : CompletionOracle) : Nat → ReflState → ReflState
  | 0, st => st
  | n + 1, st =>
    let generation := genO st.genCalls st.genHist
    let gh1 := fixedFirstAppend 3 st.genHist { role := Role.assistant, content := generation }
    let rh1 := fixedFirstAppend 3 st.reflHist { role := Role.user, content := generation }
    let critique := reflO st.reflCalls rh1
    let st1 : ReflState :=
      { genHist := gh1, reflHist := rh1, genCalls := st.genCalls + 1,
        reflCalls := st.reflCalls + 1, lastGen := some generation }
    if strContains critique "<OK>" then st1
    else
      reflectionLoop genO reflO n
        { st1 with
          genHist := fixedFirstAppend 3 gh1 { role := Role.user, content := critique },
          reflHist := fixedFirstAppend 3 rh1 { role := Role.assistant, content := critique } }

/-- Embedding of ReflectionAgent.run: merge the caller's system prompts
with the base prompts, seed the two capped buffers, drive the loop for
n_steps, and return the draft of the most recent generation step.  The
generation and reflection requests go to the same collaborator; they are
modelled as two oracles so each phase's call count is observable. -/
def ReflectionAgent.run (_a : ReflectionAgent) (genO reflO : CompletionOracle)
    (user_msg generation_system_prompt reflection_system_prompt : String)
    (n_steps : Nat) : ReflState × Except ReflErr String :=
  let gsys := generation_system_prompt ++ BASE_GENERATION_SYSTEM_PROMPT
  let rsys := reflection_system_prompt ++ BASE_REFLECTION_SYSTEM_PROMPT
  let st0 : ReflState :=
    { genHist := [build_prompt_structure gsys Role.system "",
                  build_prompt_structure user_msg Role.user ""],
      reflHist := [build_prompt_structure rsys Role.system ""],
      genCalls := 0, reflCalls := 0, lastGen := none }
  let stF := reflectionLoop genO reflO n_steps st0
  (stF,
   match stF.lastGen with
   | some g => Except.ok g
   | none => Except.error ReflErr.nameError)

/-- A registered agent node of a crew, reduced to what the scheduler sees:
its name and the creation indices of the nodes it depends on. -/
structure CrewNode where
  name : String
  dependencies : List Nat
deriving DecidableEq, Repr

/-- Dependency edges out of node i (empty for an index with no node). -/
def depsOf (crew : List CrewNode) (i : Nat) : List Nat :=
  (crew.getD i { name := "", dependencies := [] }).dependencies

/-- A non-empty path i → ... → j along dependency edges. -/
inductive DepPath (crew : List CrewNode) : Nat → Nat → Prop where
  | single {i j : Nat} : j ∈ depsOf crew i → DepPath crew i j
  | cons {i j k : Nat} : j ∈ depsOf crew i → DepPath crew j k → DepPath crew i k

/-- Modelled from the spec: crew.py is not under src/.  Spec section 4.5,
step 3: among the nodes whose dependencies are all satisfied, prefer the
one with the earliest creation index. -/
def pickNext (crew : List CrewNode) (done : List Nat) : Option Nat :=
  (List.range crew.length).find?
    (fun i => !done.contains i && (depsOf crew i).all (fun j => done.contains j))

/-- Worker computing the deterministic execution order, one picked node per
step; none when the scheduler gets stuck before every node is placed (the
cycle case). -/
def topoAux (crew : List CrewNode) : Nat → List Nat → Option (List Nat)
  | 0, acc => if acc.length = crew.length then some acc else none
  | k + 1, acc =>
    match pickNext crew acc with
    | none => if acc.length = crew.length then some acc else none
    | some i => topoAux crew k (acc ++ [i])

/-- Modelled from the spec: crew.py is not under src/.  The deterministic
topological order of spec section 4.5, or none when the declared edges do
not admit one. -/
def topologicalOrder (crew : List CrewNode) : Option (List Nat) :=
  topoAux crew crew.length []

/-- A crew run fails only with the cycle error here (node-execution
failures are not part of the modelled claims). -/
inductive CrewErr where
  | cyclicDependencyError
deriving DecidableEq, Repr

/-- Modelled from the spec: crew.py is not under src/.  Spec section 4.5:
validation happens on scope exit before any execution; a cycle raises
CyclicDependencyError with zero nodes executed, and otherwise the nodes run
strictly one at a time in the deterministic order, accumulating the
name-to-output mapping.  The node bodies are the opaque exec collaborator;
the second component is the ghost trace of executed node indices. -/
def crewRun (crew : List CrewNode) (exec : Nat → String) : Except CrewErr (List (String × String)) × List Nat :=
  match topologicalOrder crew with
  | none => (Except.error CrewErr.cyclicDependencyError, [])
  | some order =>
    (Except.ok (order.map (fun i => ((crew.getD i { name := "", dependencies := [] }).name, exec i))), order)

mutual

/-- JSON serialization of a value of the subset (double-quoted strings). -/
def jsonReprJVal : JVal → String
  | JVal.jint i => toString i
  | JVal.jstr s => "\"" ++ s ++ "\""
  | JVal.jobj kvs => "\x7b" ++ jsonReprEntries kvs ++ "\x7d"

/-- Comma-separated JSON serialization of object entries. -/
def jsonReprEntries : List (String × JVal) → String
  | [] => ""
  | [kv] => "\"" ++ kv.fst ++ "\": " ++ jsonReprJVal kv.snd
  | kv :: rest => "\"" ++ kv.fst ++ "\": " ++ jsonReprJVal kv.snd ++ ", " ++ jsonReprEntries rest

end

/-- The observation wire format as the spec words it: a JSON object mapping
each call's id, serialized as a string key, to the tool's raw return value.
This definition follows the specification text (section 6) and is compared
against what the source actually appends. -/
def jsonObservationString (d : PyDict) : String :=
  "\x7b" ++ String.intercalate ", " (d.map (fun kv => "\"" ++ toString kv.fst ++ "\": " ++ jsonReprJVal kv.snd)) ++ "\x7d"

/-- Keyword-argument lookup for the concrete example tools. -/
def argGet (args : List (String × JVal)) (k : String) : Option JVal :=
  (args.reverse.find? (fun kv => kv.fst = k)).map (fun kv => kv.snd)

/-- Serialized signature of the sum_two_elements example tool from
test_react_agent.py, in the format the tool decorator produces. -/
def sumSignature : String :=
  "\x7b\"name\": \"sum_two_elements\", \"description\": \"Computes the sum of two integers.\", "
  ++ "\"parameters\": \x7b\"properties\": \x7b\"a\": \x7b\"type\": \"int\"\x7d, \"b\": \x7b\"type\": \"int\"\x7d\x7d\x7d\x7d"

/-- The sum_two_elements tool of test_react_agent.py. -/
def sum_two_elements : Tool :=
  { name := "sum_two_elements", fn_signature := sumSignature,
    run := fun args =>
      match argGet args "a", argGet args "b" with
      | some (JVal.jint a), some (JVal.jint b) => JVal.jint (a + b)
      | _, _ => JVal.jint 0 }

/-- Serialized signature of the multiply_two_elements example tool. -/
def mulSignature : String :=
  "\x7b\"name\": \"multiply_two_elements\", \"description\": \"Multiplies two integers.\", "
  ++ "\"parameters\": \x7b\"properties\": \x7b\"a\": \x7b\"type\": \"int\"\x7d, \"b\": \x7b\"type\": \"int\"\x7d\x7d\x7d\x7d"

/-- The multiply_two_elements tool of test_react_agent.py. -/
def multiply_two_elements : Tool :=
  { name := "multiply_two_elements", fn_signature := mulSignature,
    run := fun args =>
      match argGet args "a", argGet args "b" with
      | some (JVal.jint a), some (JVal.jint b) => JVal.jint (a * b)
      | _, _ => JVal.jint 0 }

/-- A concrete agent used to instantiate several witnesses: the default
model, the empty base system prompt and a single declared tool. -/
def demoAgent : ReactAgent :=
  { model := "deepseek-chat", system_prompt := "", tools := [sum_two_elements] }

/-- Whatever the exit, run stores the (in-place mutated) agent: the one
whose system prompt is the augmented prompt. -/
theorem run_agent_eq (a : ReactAgent) (oracle : CompletionOracle) (u : String) (n : Nat) :
    (a.run oracle u n).agent = { a with system_prompt := a.seededSystemPrompt } := by
  simp only [ReactAgent.run]
  by_cases h : a.tools.isEmpty
  · simp [h]
  · simp only [h, Bool.false_eq_true, if_false]
    rcases reactLoopAux a.tools oracle n (a.seedHistory u) 0 with hist | calls | calls <;> rfl

/-- C7: a ReactAgent constructed with an empty tool set answers with
exactly one completion over the seeded buffer (system prompt plus the
question-tagged user message), returns it unchanged, and skips the loop,
the prompt augmentation and the observation machinery (the agent is
returned unmutated). -/
theorem c7_empty_tools_single_completion (a : ReactAgent) (oracle : CompletionOracle)
    (u : String) (n : Nat) (h : a.tools = []) :
    a.run oracle u n =
      { agent := a, completionCalls := 1,
        result := Except.ok (oracle 0
          [{ role := Role.system, content := a.system_prompt },
           { role := Role.user, content := "<" ++ "question" ++ ">" ++ u ++ "</" ++ "question" ++ ">" }]) } := by
  obtain ⟨m, sp, tl⟩ := a
  simp only at h
  subst h
  rfl

/-- Witness for C7 at a concrete agent, oracle and question. -/
theorem c7_witness :
    ReactAgent.run { model := "deepseek-chat", system_prompt := "BASE", tools := [] }
        (fun _ _ => "ANSWER") "hi" 10 =
      { agent := { model := "deepseek-chat", system_prompt := "BASE", tools := [] },
        completionCalls := 1, result := Except.ok "ANSWER" } :=
  c7_empty_tools_single_completion
    { model := "deepseek-chat", system_prompt := "BASE", tools := [] }
    (fun _ _ => "ANSWER") "hi" 10 rfl

/-- C8: with the DEEPSEEK_API_KEY credential absent from the environment,
both constructors raise the configuration ValueError before any graph or
loop work: no agent value is produced, so no completion call or tool
execution can ever be attempted through it. -/
theorem c8_missing_key_config_error (tools : List Tool) (model sysp : String) :
    mkReactAgent none tools model sysp = Except.error (ConfigErr.valueError apiKeyErrorMsg)
    ∧ mkReflectionAgent none model = Except.error (ConfigErr.valueError apiKeyErrorMsg) :=
  ⟨rfl, rfl⟩

/-- C10: run with a non-empty tool set permanently appends the ReAct
instruction/signature block to the agent's system prompt, so a second run
on the returned agent seeds its buffer with the block duplicated. -/
theorem c10_run_mutates_system_prompt (a : ReactAgent) (o1 o2 : CompletionOracle)
    (u1 u2 : String) (n1 n2 : Nat) (h : a.tools.isEmpty = false) :
    ((a.run o1 u1 n1).agent).system_prompt = a.system_prompt ++ a.reactBlock
    ∧ ((a.run o1 u1 n1).agent).tools = a.tools
    ∧ ((a.run o1 u1 n1).agent).seededSystemPrompt = a.system_prompt ++ a.reactBlock ++ a.reactBlock
    ∧ (((a.run o1 u1 n1).agent).run o2 u2 n2).agent.system_prompt
        = a.system_prompt ++ a.reactBlock ++ a.reactBlock := by
  have h1 := run_agent_eq a o1 u1 n1
  have h2 := run_agent_eq ((a.run o1 u1 n1).agent) o2 u2 n2
  rw [h1] at h2 ⊢
  simp only [ReactAgent.seededSystemPrompt, ReactAgent.reactBlock,
    ReactAgent.add_tool_signatures, h, Bool.false_eq_true, if_false] at h2 ⊢
  refine ⟨trivial, trivial, trivial, ?_⟩
  rw [h2]

/-- Witness for C10 at a concrete agent. -/
theorem c10_witness :
    ((demoAgent.run (fun _ _ => "x") "q" 1).agent).system_prompt
        = demoAgent.system_prompt ++ demoAgent.reactBlock
    ∧ ((demoAgent.run (fun _ _ => "x") "q" 1).agent).tools = demoAgent.tools
    ∧ ((demoAgent.run (fun _ _ => "x") "q" 1).agent).seededSystemPrompt
        = demoAgent.system_prompt ++ demoAgent.reactBlock ++ demoAgent.reactBlock
    ∧ (((demoAgent.run (fun _ _ => "x") "q" 1).agent).run (fun _ _ => "y") "r" 1).agent.system_prompt
        = demoAgent.system_prompt ++ demoAgent.reactBlock ++ demoAgent.reactBlock :=
  c10_run_mutates_system_prompt demoAgent (fun _ _ => "x") (fun _ _ => "y") "q" "r" 1 1 rfl

/-- C9: in any loop iteration of a tool-carrying agent, a completion with
neither a response tag nor a well-formed thought tag raises IndexError on
thought.content[0] right after that iteration's completion request, rather
than treating the round as wasted; when it is the first iteration, run
ends with the IndexError after exactly one completion request. -/
theorem c9_missing_thought_index_error (a : ReactAgent) (oracle : CompletionOracle)
    (u : String) (m : Nat) (hist : List Message) (calls : Nat)
    (ht : a.tools.isEmpty = false)
    (hresp : (extract_tag_content (oracle calls hist) "response").content = [])
    (hth : (extract_tag_content (oracle calls hist) "thought").content = []) :
    reactLoopAux a.tools oracle (m + 1) hist calls
        = LoopExit.raised (calls + 1) RunErr.indexError
    ∧ (hist = a.seedHistory u → calls = 0 →
        ∀ n : Nat, (a.run oracle u (n + 1)).result = Except.error RunErr.indexError
          ∧ (a.run oracle u (n + 1)).completionCalls = 1) := by
  have hloop : ∀ k : Nat, reactLoopAux a.tools oracle (k + 1) hist calls
      = LoopExit.raised (calls + 1) RunErr.indexError := by
    intro k
    simp only [reactLoopAux, hresp, hth]
  refine ⟨hloop m, ?_⟩
  intro h1 h2 n
  subst h1
  subst h2
  simp only [ReactAgent.run, ht, Bool.false_eq_true, if_false, hloop n]
  exact ⟨trivial, trivial⟩

/-- Witness for C9: a stub completion with no tags at all. -/
theorem c9_witness :
    (demoAgent.run (fun _ _ => "plain text") "q" 1).result = Except.error RunErr.indexError
    ∧ (demoAgent.run (fun _ _ => "plain text") "q" 1).completionCalls = 1 :=
  (c9_missing_thought_index_error demoAgent (fun _ _ => "plain text") "q" 0
    (demoAgent.seedHistory "q") 0 rfl rfl rfl).2 rfl rfl 0

/-- A stub that never emits a terminal tag (and always carries a thought
tag, with no tool calls) drives the loop through its whole budget: the
loop itself makes exactly one completion request per round. -/
theorem loop_budget_of_quiet (tools : List Tool) (oracle : CompletionOracle)
    (Hor : ∀ i h, (extract_tag_content (oracle i h) "response").content = []
        ∧ (extract_tag_content (oracle i h) "thought").content ≠ []
        ∧ (extract_tag_content (oracle i h) "tool_call").content = []) :
    ∀ (n : Nat) (hist : List Message) (calls : Nat),
      ∃ hist2, reactLoopAux tools oracle n hist calls = LoopExit.budget hist2 (calls + n) := by
  intro n
  induction n with
  | zero => intro hist calls; exact ⟨hist, rfl⟩
  | succ m ih =>
    intro hist calls
    obtain ⟨hresp, hth, htc⟩ := Hor calls hist
    obtain ⟨hist2, h2⟩ := ih (hist ++ [{ role := Role.assistant, content := oracle calls hist }]) (calls + 1)
    refine ⟨hist2, ?_⟩
    simp only [reactLoopAux, hresp, htc]
    rcases hc : (extract_tag_content (oracle calls hist) "thought").content with _ | ⟨c, cs⟩
    · exact absurd hc hth
    · rw [h2]
      have : calls + 1 + m = calls + (m + 1) := by omega
      rw [this]

/-- C1 (amended): with a non-empty tool set and a stub that never emits a
terminal response tag, run exhausts all max_rounds loop iterations and
then requests one additional completion over the accumulated buffer —
max_rounds + 1 requests in total — and returns that extra completion's
raw content (not the final completion produced within the loop). -/
theorem c1_budget_exhausted_extra_completion (a : ReactAgent) (oracle : CompletionOracle)
    (u : String) (max_rounds : Nat) (ht : a.tools.isEmpty = false)
    (Hor : ∀ i h, (extract_tag_content (oracle i h) "response").content = []
        ∧ (extract_tag_content (oracle i h) "thought").content ≠ []
        ∧ (extract_tag_content (oracle i h) "tool_call").content = []) :
    (a.run oracle u max_rounds).completionCalls = max_rounds + 1
    ∧ ∃ hist, (a.run oracle u max_rounds).result = Except.ok (oracle max_rounds hist) := by
  obtain ⟨hist2, h2⟩ := loop_budget_of_quiet a.tools oracle Hor max_rounds (a.seedHistory u) 0
  rw [Nat.zero_add] at h2
  simp only [ReactAgent.run, ht, Bool.false_eq_true, if_false, h2]
  exact ⟨trivial, hist2, rfl⟩

/-- Counterexample to C1 as stated: a stub whose in-loop completion and
post-loop completion differ.  With max_rounds = 1 the run makes two
completion requests (one beyond the budget) and returns the second
completion, not the single completion produced within the loop. -/
theorem c1_counterexample :
    (demoAgent.run (fun i _ => if i = 0 then "<thought>t</thought>" else "SECOND") "q" 1).result
        = Except.ok "SECOND"
    ∧ (demoAgent.run (fun i _ => if i = 0 then "<thought>t</thought>" else "SECOND") "q" 1).completionCalls = 2
    ∧ (Except.ok "SECOND" : Except RunErr String) ≠ Except.ok "<thought>t</thought>" :=
  ⟨rfl, rfl, fun h => absurd (Except.ok.inj h) (by decide)⟩

/-- Witness for the amended C1 at a concrete agent and stub. -/
theorem c1_witness :
    (demoAgent.run (fun _ _ => "<thought>t</thought>") "q" 1).completionCalls = 1 + 1
    ∧ ∃ _hist : List Message, (demoAgent.run (fun _ _ => "<thought>t</thought>") "q" 1).result
        = Except.ok "<thought>t</thought>" := by
  have h := c1_budget_exhausted_extra_completion demoAgent
    (fun _ _ => "<thought>t</thought>") "q" 1 rfl ?hor
  case hor =>
    intro i hh
    refine ⟨rfl, ?_, rfl⟩
    show (extract_tag_content "<thought>t</thought>" "thought").content ≠ []
    decide
  obtain ⟨h1, hist, h2⟩ := h
  exact ⟨h1, hist, h2⟩

/-- C3: when the first critique contains the stop marker, the reflection
loop terminates immediately with the first draft, after exactly one
generation request and one reflection request, and the critique is never
appended to either buffer. -/
theorem c3_first_critique_stops (ag : ReflectionAgent) (genO reflO : CompletionOracle)
    (u gsp rsp : String) (m : Nat)
    (hok : strContains
        (reflO 0 [{ role := Role.system, content := rsp ++ BASE_REFLECTION_SYSTEM_PROMPT },
                  { role := Role.user,
                    content := genO 0 [{ role := Role.system, content := gsp ++ BASE_GENERATION_SYSTEM_PROMPT },
                                       { role := Role.user, content := u }] }]) "<OK>" = true) :
    (ag.run genO reflO u gsp rsp (m + 1)).2
        = Except.ok (genO 0 [{ role := Role.system, content := gsp ++ BASE_GENERATION_SYSTEM_PROMPT },
                             { role := Role.user, content := u }])
    ∧ (ag.run genO reflO u gsp rsp (m + 1)).1.genCalls = 1
    ∧ (ag.run genO reflO u gsp rsp (m + 1)).1.reflCalls = 1
    ∧ (ag.run genO reflO u gsp rsp (m + 1)).1.genHist
        = [{ role := Role.system, content := gsp ++ BASE_GENERATION_SYSTEM_PROMPT },
           { role := Role.user, content := u },
           { role := Role.assistant,
             content := genO 0 [{ role := Role.system, content := gsp ++ BASE_GENERATION_SYSTEM_PROMPT },
                                { role := Role.user, content := u }] }]
    ∧ (ag.run genO reflO u gsp rsp (m + 1)).1.reflHist
        = [{ role := Role.system, content := rsp ++ BASE_REFLECTION_SYSTEM_PROMPT },
           { role := Role.user,
             content := genO 0 [{ role := Role.system, content := gsp ++ BASE_GENERATION_SYSTEM_PROMPT },
                                { role := Role.user, content := u }] }] := by
  simp only [ReflectionAgent.run, reflectionLoop, build_prompt_structure, fixedFirstAppend,
    List.length_cons, List.length_nil, if_true, if_false] at hok ⊢
  simp only [show ¬ (2 = 3) by decide, show ¬ (1 = 3) by decide, if_false,
    List.cons_append, List.nil_append] at hok ⊢
  rw [hok]
  exact ⟨rfl, rfl, rfl, rfl, rfl⟩

/-- Witness for C3: a stub critique that immediately contains the stop
marker, over a ten-step budget. -/
theorem c3_witness :
    (ReflectionAgent.run { model := "deepseek-chat" } (fun _ _ => "draft")
        (fun _ _ => "looks good <OK>") "write a poem" "" "" 10).2 = Except.ok "draft"
    ∧ (ReflectionAgent.run { model := "deepseek-chat" } (fun _ _ => "draft")
        (fun _ _ => "looks good <OK>") "write a poem" "" "" 10).1.genCalls = 1
    ∧ (ReflectionAgent.run { model := "deepseek-chat" } (fun _ _ => "draft")
        (fun _ _ => "looks good <OK>") "write a poem" "" "" 10).1.reflCalls = 1 := by
  have h := c3_first_critique_stops { model := "deepseek-chat" } (fun _ _ => "draft")
    (fun _ _ => "looks good <OK>") "write a poem" "" "" 9 (by decide)
  exact ⟨h.1, h.2.1, h.2.2.1⟩

/-- A serialized tool call for the sum tool with arguments a=1, b=2, id 0,
exactly as it appears between tool_call tags in a completion. -/
def sumCallStr : String :=
  "\x7b\"name\": \"sum_two_elements\",\"arguments\": \x7b\"a\": 1, \"b\": 2\x7d, \"id\": 0\x7d"

/-- A completion carrying a thought and the sum tool call. -/
def c4completion : String :=
  "<thought>t</thought><tool_call>" ++ sumCallStr ++ "</tool_call>"

/-- A two-message conversation buffer used by concrete loop examples. -/
def c4hist : List Message :=
  [{ role := Role.system, content := "s" }, { role := Role.user, content := "<question>q</question>" }]

/-- C4 (amended): in a loop iteration whose completion carries tool calls
that all process successfully, the observation turn appended as the next
user message is the Python string rendering of the observations dict —
each call id as an unquoted integer key mapped to the tool's raw return
value — not a JSON object with string keys. -/
theorem c4_observation_is_python_repr (tools : List Tool) (oracle : CompletionOracle)
    (n : Nat) (hist : List Message) (calls : Nat) (obs : PyDict) (trace : List ExecEvent)
    (tc0 : String) (tcs : List String)
    (hresp : (extract_tag_content (oracle calls hist) "response").content = [])
    (hth : (extract_tag_content (oracle calls hist) "thought").content ≠ [])
    (htc : (extract_tag_content (oracle calls hist) "tool_call").content = tc0 :: tcs)
    (hproc : process_tool_calls tools (tc0 :: tcs) = (Except.ok obs, trace)) :
    reactLoopAux tools oracle (n + 1) hist calls
      = reactLoopAux tools oracle n
          ((hist ++ [{ role := Role.assistant, content := oracle calls hist }])
            ++ [{ role := Role.user, content := pyReprDict obs }]) (calls + 1) := by
  simp only [reactLoopAux, hresp, htc, hproc]
  rcases hc : (extract_tag_content (oracle calls hist) "thought").content with _ | ⟨c, cs⟩
  · exact absurd hc hth
  · rfl

set_option maxRecDepth 8192 in
/-- Witness for the amended C4: the concrete sum call yields the
observation turn rendered from the dict mapping id 0 to 3. -/
theorem c4_witness :
    reactLoopAux [sum_two_elements] (fun _ _ => c4completion) 1 c4hist 0
      = reactLoopAux [sum_two_elements] (fun _ _ => c4completion) 0
          ((c4hist ++ [{ role := Role.assistant, content := c4completion }])
            ++ [{ role := Role.user, content := pyReprDict [(0, JVal.jint 3)] }]) 1 := by
  have h := c4_observation_is_python_repr [sum_two_elements] (fun _ _ => c4completion)
    0 c4hist 0 [(0, JVal.jint 3)] [⟨"sum_two_elements", 0, JVal.jint 3⟩] sumCallStr [] ?r ?t ?c ?p
  case r => rfl
  case t =>
    show (extract_tag_content c4completion "thought").content ≠ []
    decide
  case c => rfl
  case p => rfl
  exact h

set_option maxRecDepth 8192 in
/-- Counterexample to C4 as stated: the observation turn the source
appends for the concrete sum call is the Python dict rendering with the id
as an unquoted integer key, which differs from the JSON object with the id
serialized as a string key that the spec describes. -/
theorem c4_counterexample :
    reactLoopAux [sum_two_elements] (fun _ _ => c4completion) 1 c4hist 0
      = LoopExit.budget (c4hist ++
          [{ role := Role.assistant, content := c4completion },
           { role := Role.user, content := "\x7b0: 3\x7d" }]) 1
    ∧ pyReprDict [(0, JVal.jint 3)] = "\x7b0: 3\x7d"
    ∧ "\x7b0: 3\x7d" ≠ jsonObservationString [(0, JVal.jint 3)] :=
  ⟨rfl, rfl, by decide⟩

/-- C5: a tool call whose name is not in the agent's declared tool set is
a hard error, never a silent skip: processing that call raises the
tools_dict lookup KeyError (the spec's UnknownToolError) and produces no
result, a batch whose first call it is aborts with nothing executed (empty
trace), and the loop iteration that carries such a call aborts with that
error after its single completion request. -/
theorem c5_unknown_tool_fatal (tools : List Tool) (s : String) (rest : List String)
    (j : JVal) (nm : String) (oracle : CompletionOracle) (n : Nat)
    (hist : List Message) (calls : Nat)
    (hparse : json_loads s = some j)
    (hname : jvalGet j "name" = some (JVal.jstr nm))
    (hlook : toolLookup tools nm = none)
    (hresp : (extract_tag_content (oracle calls hist) "response").content = [])
    (hth : (extract_tag_content (oracle calls hist) "thought").content ≠ [])
    (htc : (extract_tag_content (oracle calls hist) "tool_call").content = s :: rest) :
    processOne tools s = Except.error (ProcErr.unknownTool nm)
    ∧ process_tool_calls tools (s :: rest) = (Except.error (ProcErr.unknownTool nm), [])
    ∧ reactLoopAux tools oracle (n + 1) hist calls
        = LoopExit.raised (calls + 1) (RunErr.procError (ProcErr.unknownTool nm)) := by
  have hone : processOne tools s = Except.error (ProcErr.unknownTool nm) := by
    simp only [processOne, hparse, hname, hlook]
  have hp : process_tool_calls tools (s :: rest) = (Except.error (ProcErr.unknownTool nm), []) := by
    simp only [process_tool_calls, processAux, hone]
  refine ⟨hone, hp, ?_⟩
  simp only [reactLoopAux, hresp, htc, hp]
  rcases hc : (extract_tag_content (oracle calls hist) "thought").content with _ | ⟨c, cs⟩
  · exact absurd hc hth
  · rfl

/-- A serialized call naming a tool that does not exist. -/
def unknownCallStr : String :=
  "\x7b\"name\": \"does_not_exist\",\"arguments\": \x7b\x7d, \"id\": 0\x7d"

/-- A completion carrying a thought and the unknown tool call. -/
def c5completion : String :=
  "<thought>t</thought><tool_call>" ++ unknownCallStr ++ "</tool_call>"

/-- Witness for C5 at the concrete unknown call. -/
theorem c5_witness :
    processOne [sum_two_elements] unknownCallStr
        = Except.error (ProcErr.unknownTool "does_not_exist")
    ∧ process_tool_calls [sum_two_elements] [unknownCallStr]
        = (Except.error (ProcErr.unknownTool "does_not_exist"), [])
    ∧ reactLoopAux [sum_two_elements] (fun _ _ => c5completion) 1 c4hist 0
        = LoopExit.raised 1 (RunErr.procError (ProcErr.unknownTool "does_not_exist")) := by
  have h := c5_unknown_tool_fatal [sum_two_elements] unknownCallStr []
    (JVal.jobj [("name", JVal.jstr "does_not_exist"), ("arguments", JVal.jobj []), ("id", JVal.jint 0)])
    "does_not_exist" (fun _ _ => c5completion) 0 c4hist 0 ?hp ?hn ?hl ?hr ?ht ?hc
  case hp => rfl
  case hn => rfl
  case hl => rfl
  case hr => rfl
  case ht =>
    show (extract_tag_content c5completion "thought").content ≠ []
    decide
  case hc => rfl
  exact h

/-- The (name, id) header a serialized tool call carries, as json.loads
exposes it: the embedded name and id fields, independent of any tool set
or of processing order. -/
def callHeader (s : String) : Option (String × Int) :=
  match json_loads s with
  | some j =>
    match jvalGet j "name", jvalGet j "id" with
    | some (JVal.jstr n), some (JVal.jint i) => some (n, i)
    | _, _ => none
  | none => none

/-- Headers of a list of serialized calls, in document order. -/
def headersOf : List String → Option (List (String × Int))
  | [] => some []
  | s :: rest =>
    match callHeader s, headersOf rest with
    | some h, some hs => some (h :: hs)
    | _, _ => none

/-- Folding one executed call into the observations dict. -/
def insEvent (d : PyDict) (e : ExecEvent) : PyDict :=
  pyDictInsert d e.callId e.result

theorem pyDictGet_insert_self (d : PyDict) (k : Int) (v : JVal) :
    pyDictGet (pyDictInsert d k v) k = some v := by
  induction d with
  | nil => simp [pyDictInsert, pyDictGet]
  | cons kv rest ih =>
    obtain ⟨k0, v0⟩ := kv
    by_cases h0 : k0 = k
    · simp [pyDictInsert, pyDictGet, h0]
    · simp [pyDictInsert, pyDictGet, h0, ih]

theorem pyDictGet_insert_ne (d : PyDict) (k k2 : Int) (v : JVal) (h : ¬ k2 = k) :
    pyDictGet (pyDictInsert d k v) k2 = pyDictGet d k2 := by
  have h2 : ¬ k = k2 := fun hh => h hh.symm
  induction d with
  | nil => simp [pyDictInsert, pyDictGet, h2]
  | cons kv rest ih =>
    obtain ⟨k0, v0⟩ := kv
    by_cases h0 : k0 = k
    · subst h0
      simp [pyDictInsert, pyDictGet, h2]
    · by_cases hk2 : k0 = k2
      · simp [pyDictInsert, pyDictGet, h0, hk2, h]
      · simp [pyDictInsert, pyDictGet, h0, hk2, h, ih]

theorem find?_append_some {α : Type} (p : α → Bool) (l1 l2 : List α) (a : α)
    (h : l1.find? p = some a) : (l1 ++ l2).find? p = some a := by
  induction l1 with
  | nil => simp [List.find?] at h
  | cons x rest ih =>
    rcases hx : p x with _ | _
    · simp only [List.find?_cons, hx] at h
      simp only [List.cons_append, List.find?_cons, hx]
      exact ih h
    · simp only [List.find?_cons, hx] at h
      simp only [List.cons_append, List.find?_cons, hx]
      exact h

theorem find?_append_none {α : Type} (p : α → Bool) (l1 l2 : List α)
    (h : l1.find? p = none) : (l1 ++ l2).find? p = l2.find? p := by
  induction l1 with
  | nil => simp
  | cons x rest ih =>
    rcases hx : p x with _ | _
    · simp only [List.find?_cons, hx] at h
      simp only [List.cons_append, List.find?_cons, hx]
      exact ih h
    · simp only [List.find?_cons, hx] at h
      exact absurd h (by simp)

theorem dictGet_foldl (evs : List ExecEvent) : ∀ (d0 : PyDict) (k : Int),
    pyDictGet (evs.foldl insEvent d0) k
      = match evs.reverse.find? (fun e => e.callId = k) with
        | some e => some e.result
        | none => pyDictGet d0 k := by
  induction evs with
  | nil => intro d0 k; rfl
  | cons e rest ih =>
    intro d0 k
    simp only [List.foldl_cons, List.reverse_cons]
    rw [ih]
    rcases hf : rest.reverse.find? (fun x => decide (x.callId = k)) with _ | a
    · simp only [hf]
      rw [find?_append_none _ _ _ hf]
      by_cases hk : e.callId = k
      · have he : List.find? (fun x => decide (x.callId = k)) [e] = some e := by
          simp [List.find?, hk]
        simp only [he]
        show pyDictGet (insEvent d0 e) k = some e.result
        rw [insEvent, ← hk, pyDictGet_insert_self]
      · have he : List.find? (fun x => decide (x.callId = k)) [e] = none := by
          simp [List.find?, hk]
        simp only [he]
        show pyDictGet (insEvent d0 e) k = pyDictGet d0 k
        rw [insEvent, pyDictGet_insert_ne _ _ _ _ (fun hh => hk hh.symm)]
    · simp only [hf]
      rw [find?_append_some _ _ _ _ hf]

theorem mem_pyDictInsert (d : PyDict) (kk k : Int) (v vv : JVal)
    (h : (k, v) ∈ pyDictInsert d kk vv) : k = kk ∨ ∃ v0, (k, v0) ∈ d := by
  induction d with
  | nil =>
    simp [pyDictInsert] at h
    exact Or.inl h.1
  | cons kv rest ih =>
    obtain ⟨k0, v0⟩ := kv
    by_cases h0 : k0 = kk
    · subst h0
      simp only [pyDictInsert, if_pos rfl] at h
      rcases List.mem_cons.mp h with he | hr
      · simp only [Prod.mk.injEq] at he
        exact Or.inl he.1
      · exact Or.inr ⟨v, List.mem_cons_of_mem _ hr⟩
    · simp only [pyDictInsert, h0, if_false] at h
      rcases List.mem_cons.mp h with he | hr
      · simp only [Prod.mk.injEq] at he
        refine Or.inr ⟨v0, ?_⟩
        rw [he.1]
        exact List.mem_cons_self _ _
      · rcases ih hr with hl | ⟨v1, hv1⟩
        · exact Or.inl hl
        · exact Or.inr ⟨v1, List.mem_cons_of_mem _ hv1⟩

theorem mem_foldl_insEvent (evs : List ExecEvent) : ∀ (d0 : PyDict) (k : Int) (v : JVal),
    (k, v) ∈ evs.foldl insEvent d0 → (∃ e ∈ evs, e.callId = k) ∨ ∃ v0, (k, v0) ∈ d0 := by
  induction evs with
  | nil => intro d0 k v h; exact Or.inr ⟨v, h⟩
  | cons e rest ih =>
    intro d0 k v h
    simp only [List.foldl_cons] at h
    rcases ih _ k v h with ⟨e2, he2, hk⟩ | ⟨v0, hv0⟩
    · exact Or.inl ⟨e2, List.mem_cons_of_mem _ he2, hk⟩
    · rcases mem_pyDictInsert _ _ _ _ _ hv0 with hl | ⟨v1, hv1⟩
      · exact Or.inl ⟨e, List.mem_cons_self _ _, hl.symm⟩
      · exact Or.inr ⟨v1, hv1⟩

theorem toolLookup_name (tools : List Tool) (n : String) (tool : Tool)
    (h : toolLookup tools n = some tool) : tool.name = n := by
  unfold toolLookup at h
  have h2 := List.find?_some h
  exact of_decide_eq_true h2

theorem processOne_header (tools : List Tool) (s : String) (nm : String) (i : Int) (res : JVal)
    (h : processOne tools s = Except.ok (nm, i, res)) : callHeader s = some (nm, i) := by
  unfold processOne at h
  split at h
  · exact absurd h (by simp)
  case _ j hj =>
    split at h
    · exact absurd h (by simp)
    case _ n hn =>
      split at h
      · exact absurd h (by simp)
      case _ tool hlk =>
        split at h
        · exact absurd h (by simp)
        case _ sigj hsig =>
          split at h
          · exact absurd h (by simp)
          case _ args hargs =>
            split at h
            · exact absurd h (by simp)
            case _ vargs hval =>
              split at h
              case _ i2 hid =>
                simp only [Except.ok.injEq, Prod.mk.injEq] at h
                obtain ⟨h1, h2, h3⟩ := h
                simp only [callHeader, hj, hn, hid, Option.some.injEq]
                rw [← h1, ← h2, toolLookup_name tools n tool hlk]
              · exact absurd h (by simp)
          · exact absurd h (by simp)
    · exact absurd h (by simp)

theorem processAux_ok_charact (tools : List Tool) : ∀ (contents : List String)
    (obs0 : PyDict) (trace0 : List ExecEvent) (obs : PyDict) (trace : List ExecEvent),
    processAux tools contents obs0 trace0 = (Except.ok obs, trace) →
    ∃ evs : List ExecEvent,
      trace = trace0 ++ evs
      ∧ headersOf contents = some (evs.map (fun e => (e.tool, e.callId)))
      ∧ obs = evs.foldl insEvent obs0 := by
  intro contents
  induction contents with
  | nil =>
    intro obs0 trace0 obs trace h
    simp only [processAux, Prod.mk.injEq, Except.ok.injEq] at h
    exact ⟨[], by simp [h.2.symm], by simp [headersOf], by simp [h.1.symm]⟩
  | cons s rest ih =>
    intro obs0 trace0 obs trace h
    simp only [processAux] at h
    split at h
    · exact absurd h (by simp)
    case _ nm i res hone =>
      obtain ⟨evs, htr, hhd, hobs⟩ := ih _ _ _ _ h
      refine ⟨⟨nm, i, res⟩ :: evs, ?_, ?_, ?_⟩
      · rw [htr, List.append_assoc]; rfl
      · simp only [headersOf, processOne_header tools s nm i res hone, hhd, List.map_cons]
      · simpa [insEvent] using hobs

/-- C6: when every serialized tool call of a completion processes
successfully, the calls are executed exactly in the order they appear in
the completion text (the trace lists, in order, the name/id headers
embedded in the text), every key of the observations dict is an id
embedded in some call (never a processing position), and looking up an id
yields the result of the last processed call carrying that id (a duplicate
id overwrites the earlier entry). -/
theorem c6_order_ids_duplicate_overwrite (tools : List Tool) (text : String)
    (obs : PyDict) (trace : List ExecEvent)
    (hok : process_tool_calls tools (extract_tag_content text "tool_call").content
        = (Except.ok obs, trace)) :
    headersOf (extract_tag_content text "tool_call").content
        = some (trace.map (fun e => (e.tool, e.callId)))
    ∧ (∀ k v, (k, v) ∈ obs → ∃ e ∈ trace, e.callId = k)
    ∧ (∀ k, pyDictGet obs k
        = (trace.reverse.find? (fun e => e.callId = k)).map (fun e => e.result)) := by
  obtain ⟨evs, htr, hhd, hobs⟩ := processAux_ok_charact tools _ [] [] obs trace hok
  simp only [List.nil_append] at htr
  rw [htr]
  refine ⟨hhd, ?_, ?_⟩
  · intro k v hm
    rcases mem_foldl_insEvent evs [] k v (hobs ▸ hm) with hl | ⟨v0, hv0⟩
    · exact hl
    · exact absurd hv0 (List.not_mem_nil _)
  · intro k
    rw [hobs, dictGet_foldl]
    rcases hf : evs.reverse.find? (fun e => decide (e.callId = k)) with _ | e
    · simp [hf, pyDictGet]
    · simp [hf]

/-- A second serialized sum call sharing id 0 with sumCallStr. -/
def sumCallStr2 : String :=
  "\x7b\"name\": \"sum_two_elements\",\"arguments\": \x7b\"a\": 2, \"b\": 5\x7d, \"id\": 0\x7d"

/-- A completion text carrying two tool_call tags with the same id. -/
def c6text : String :=
  "<tool_call>" ++ sumCallStr ++ "</tool_call><tool_call>" ++ sumCallStr2 ++ "</tool_call>"

set_option maxRecDepth 8192 in
/-- Witness for C6: two calls carrying the same id 0 execute in text
order, and the id lookup yields the later call's result 7, which overwrote
the earlier 3. -/
theorem c6_witness :
    headersOf (extract_tag_content c6text "tool_call").content
      = some [("sum_two_elements", (0 : Int)), ("sum_two_elements", 0)]
    ∧ pyDictGet [((0 : Int), JVal.jint 7)] 0
      = (([⟨"sum_two_elements", 0, JVal.jint 3⟩, ⟨"sum_two_elements", 0, JVal.jint 7⟩] : List ExecEvent).reverse.find?
          (fun e => e.callId = 0)).map (fun e => e.result) := by
  have h := c6_order_ids_duplicate_overwrite [sum_two_elements] c6text
    [(0, JVal.jint 7)]
    [⟨"sum_two_elements", 0, JVal.jint 3⟩, ⟨"sum_two_elements", 0, JVal.jint 7⟩] ?hp
  case hp => rfl
  exact ⟨h.1, h.2.2 0⟩

/-- Position of the first occurrence of a value in a list (length when
absent). -/
def posIn : List Nat → Nat → Nat
  | [], _ => 0
  | x :: rest, a => if x = a then 0 else posIn rest a + 1

theorem posIn_append_left (l1 l2 : List Nat) (a : Nat) (h : a ∈ l1) :
    posIn (l1 ++ l2) a = posIn l1 a := by
  induction l1 with
  | nil => exact absurd h (List.not_mem_nil a)
  | cons x rest ih =>
    by_cases hx : x = a
    · simp [posIn, hx]
    · have hr : a ∈ rest := by
        rcases List.mem_cons.mp h with he | hr
        · exact absurd he.symm hx
        · exact hr
      simp [posIn, hx, ih hr]

theorem posIn_append_right (l1 l2 : List Nat) (a : Nat) (h : ¬ a ∈ l1) :
    posIn (l1 ++ l2) a = l1.length + posIn l2 a := by
  induction l1 with
  | nil => simp [posIn]
  | cons x rest ih =>
    have hx : ¬ x = a := fun he => h (he ▸ List.mem_cons_self x rest)
    have hr : ¬ a ∈ rest := fun hm => h (List.mem_cons_of_mem _ hm)
    simp [posIn, hx, ih hr]
    omega

theorem posIn_lt_length (l : List Nat) (a : Nat) (h : a ∈ l) : posIn l a < l.length := by
  induction l with
  | nil => exact absurd h (List.not_mem_nil a)
  | cons x rest ih =>
    by_cases hx : x = a
    · simp [posIn, hx]
    · have hr : a ∈ rest := by
        rcases List.mem_cons.mp h with he | hr
        · exact absurd he.symm hx
        · exact hr
      simp [posIn, hx]
      exact ih hr

/-- An execution prefix respects the dependency edges: every placed node
has all its dependencies placed earlier. -/
def DepOrd (crew : List CrewNode) (l : List Nat) : Prop :=
  ∀ a ∈ l, ∀ j ∈ depsOf crew a, j ∈ l ∧ posIn l j < posIn l a

theorem pickNext_props (crew : List CrewNode) (done : List Nat) (i : Nat)
    (h : pickNext crew done = some i) :
    i < crew.length ∧ ¬ i ∈ done ∧ ∀ j ∈ depsOf crew i, j ∈ done := by
  unfold pickNext at h
  have hmem := List.mem_of_find?_eq_some h
  have hp := List.find?_some h
  rw [Bool.and_eq_true] at hp
  obtain ⟨hp1, hp2⟩ := hp
  refine ⟨List.mem_range.mp hmem, ?_, ?_⟩
  · intro hd
    have hc : done.contains i = true := by simpa using hd
    rw [hc] at hp1
    simp at hp1
  · intro j hj
    rw [List.all_eq_true] at hp2
    have := hp2 j hj
    simpa using this

theorem topoAux_sound (crew : List CrewNode) : ∀ (fuel : Nat) (acc order : List Nat),
    topoAux crew fuel acc = some order →
    acc.Nodup → (∀ x ∈ acc, x < crew.length) → DepOrd crew acc →
    order.Nodup ∧ (∀ x ∈ order, x < crew.length) ∧ DepOrd crew order
      ∧ order.length = crew.length := by
  intro fuel
  induction fuel with
  | zero =>
    intro acc order h hnd hlt hord
    simp only [topoAux] at h
    split at h
    · cases h
      exact ⟨hnd, hlt, hord, by assumption⟩
    · exact absurd h (by simp)
  | succ m ih =>
    intro acc order h hnd hlt hord
    simp only [topoAux] at h
    split at h
    · split at h
      · cases h
        exact ⟨hnd, hlt, hord, by assumption⟩
      · exact absurd h (by simp)
    case _ i hpick =>
      obtain ⟨hi, hnin, hdeps⟩ := pickNext_props crew acc i hpick
      refine ih (acc ++ [i]) order h ?_ ?_ ?_
      · simp [List.nodup_append, hnin]
        exact hnd
      · intro x hx
        rcases List.mem_append.mp hx with hx1 | hx2
        · exact hlt x hx1
        · rw [List.mem_singleton.mp hx2]
          exact hi
      · intro a ha j hj
        rcases List.mem_append.mp ha with ha1 | ha2
        · obtain ⟨hjm, hjp⟩ := hord a ha1 j hj
          refine ⟨List.mem_append_left _ hjm, ?_⟩
          rw [posIn_append_left _ _ _ hjm, posIn_append_left _ _ _ ha1]
          exact hjp
        · have hai : a = i := List.mem_singleton.mp ha2
          subst hai
          have hjd : j ∈ acc := hdeps j hj
          refine ⟨List.mem_append_left _ hjd, ?_⟩
          rw [posIn_append_left _ _ _ hjd, posIn_append_right _ _ _ hnin]
          have := posIn_lt_length acc j hjd
          omega

theorem order_complete (order : List Nat) (n : Nat) (hnd : order.Nodup)
    (hlt : ∀ x ∈ order, x < n) (hlen : order.length = n) :
    ∀ m, m < n → m ∈ order := by
  intro m hm
  have hsub : order.toFinset ⊆ Finset.range n := by
    intro x hx
    exact Finset.mem_range.mpr (hlt x (List.mem_toFinset.mp hx))
  have hcard : order.toFinset.card = n := by
    rw [List.toFinset_card_of_nodup hnd, hlen]
  have heq : order.toFinset = Finset.range n := by
    apply Finset.eq_of_subset_of_card_le hsub
    rw [hcard]
    exact le_of_eq (Finset.card_range n)
  have : m ∈ order.toFinset := by
    rw [heq]
    exact Finset.mem_range.mpr hm
  exact List.mem_toFinset.mp this

theorem depsOf_out_of_range (crew : List CrewNode) (i : Nat) (h : crew.length ≤ i) :
    depsOf crew i = [] := by
  simp [depsOf, List.getD, List.getElem?_eq_none h]

theorem depPath_src_lt (crew : List CrewNode) {i j : Nat} (p : DepPath crew i j) :
    i < crew.length := by
  by_contra hge
  have hnil : depsOf crew i = [] := depsOf_out_of_range crew i (Nat.le_of_not_lt hge)
  cases p with
  | single hj => rw [hnil] at hj; exact List.not_mem_nil _ hj
  | cons hj _ => rw [hnil] at hj; exact List.not_mem_nil _ hj

theorem depPath_pos (crew : List CrewNode) (order : List Nat) (hord : DepOrd crew order) :
    ∀ {a b : Nat}, DepPath crew a b → a ∈ order → b ∈ order ∧ posIn order b < posIn order a := by
  intro a b p
  induction p with
  | single hj => intro ha; exact hord _ ha _ hj
  | cons hj _ ih =>
    intro ha
    obtain ⟨hjm, hjp⟩ := hord _ ha _ hj
    obtain ⟨hbm, hbp⟩ := ih hjm
    exact ⟨hbm, lt_trans hbp hjp⟩

/-- C2: when the declared dependency edges contain a cycle (a non-empty
dependency path from some node back to itself), the crew run raises
CyclicDependencyError and executes no node: the result mapping is absent
and the execution trace is empty. -/
theorem c2_cycle_aborts_run (crew : List CrewNode) (exec : Nat → String) (i : Nat)
    (hcyc : DepPath crew i i) :
    crewRun crew exec = (Except.error CrewErr.cyclicDependencyError, []) := by
  have htopo : topologicalOrder crew = none := by
    rcases ho : topologicalOrder crew with _ | order
    · rfl
    · exfalso
      obtain ⟨hnd, hlt, hord, hlen⟩ := topoAux_sound crew crew.length [] order ho
        List.nodup_nil (by intro x hx; exact absurd hx (List.not_mem_nil x))
        (by intro a ha; exact absurd ha (List.not_mem_nil a))
      have hi : i ∈ order :=
        order_complete order crew.length hnd hlt hlen i (depPath_src_lt crew hcyc)
      have := (depPath_pos crew order hord hcyc hi).2
      exact lt_irrefl _ this
  simp [crewRun, htopo]

/-- The two-node cyclic crew A→B→A from the spec's example. -/
def crewAB : List CrewNode :=
  [{ name := "A", dependencies := [1] }, { name := "B", dependencies := [0] }]

/-- Witness for C2 at the concrete cyclic crew. -/
theorem c2_witness :
    crewRun crewAB (fun _ => "out") = (Except.error CrewErr.cyclicDependencyError, []) :=
  c2_cycle_aborts_run crewAB (fun _ => "out") 0
    (DepPath.cons (show (1 : Nat) ∈ depsOf crewAB 0 by decide)
      (DepPath.single (show (0 : Nat) ∈ depsOf crewAB 1 by decide)))

end AgenticPatterns
